import Mathlib

/-!
# Verification of the stellar-white-belt split-settlement client

Shallow embedding of the repository's core logic:
* `calculateSplit`, `validateParticipants`, `executeSplit` from
  `src/stellar-white-belt/src/split.js`;
* `checkSufficientBalance`, `estimateTotalCost`, `validateBalanceForPayment`,
  `validateBalanceForSplit` from the balance-protection module;
* the split-preview / execute handler wiring from the main UI module.

JavaScript numbers are modelled as exact rationals (`ℚ`); `toFixed(d)` is
modelled as rounding to `d` decimal digits (round half up for the values the
claims exercise) and rendering the fixed-point decimal string.  External
collaborators (Horizon account loads, fee fetches, Freighter signing,
transaction submission) are modelled as an environment of oracles indexed by
the 1-based loop counter `currentIndex`, each returning either a value or a
thrown error message.
-/

namespace StellarWhiteBelt

/-! ## Fixed-point decimal rendering (JS `Number.prototype.toFixed`) -/

/-- The rational value denoted by `x.toFixed(d)`: `x` rounded to `d`
fractional decimal digits. -/
def toFixedVal (d : ℕ) (q : ℚ) : ℚ :=
  (round (q * 10 ^ d) : ℤ) / 10 ^ d

/-- Left-pad a string with `'0'` to length `n`. -/
def padZeros (n : ℕ) (s : String) : String :=
  ⟨List.replicate (n - s.length) '0'⟩ ++ s

/-- Render the integer `m` (a count of `10 ^ d`-ths) as a fixed-point decimal
string with `d` fractional digits. -/
def renderFixed (d : ℕ) (m : ℤ) : String :=
  (if m < 0 then "-" else "") ++ toString (m.natAbs / 10 ^ d) ++
    (if d = 0 then "" else "." ++ padZeros d (toString (m.natAbs % 10 ^ d)))

/-- The string produced by `x.toFixed(d)`: the decimal rendering of
`toFixedVal d x` with exactly `d` fractional digits. -/
def toFixedStr (d : ℕ) (q : ℚ) : String :=
  renderFixed d (round (q * 10 ^ d))

/-- JS `String.prototype.includes`: `sub` occurs contiguously in `s`. -/
def hasInfixChars (sub : List Char) : List Char → Bool
  | [] => sub.isEmpty
  | c :: t => sub.isPrefixOf (c :: t) || hasInfixChars sub t

/-- JS `s.includes(sub)`. -/
def jsIncludes (s sub : String) : Bool :=
  hasInfixChars sub.data s.data

/-! ## Split calculator (`calculateSplit`, split.js lines 16–29)

```js
export function calculateSplit(totalAmount, numParticipants) {
    if (!totalAmount || !numParticipants || numParticipants <= 0) {
        throw new Error("Invalid split parameters");
    }
    const total = parseFloat(totalAmount);
    const perPerson = (total / numParticipants).toFixed(7); // Stellar precision
    return {
        total: total.toFixed(2),
        perPerson: parseFloat(perPerson).toFixed(2),
        numParticipants
    };
}
```

A missing argument is `Option.none`; JS falsiness of a number is `= 0`. -/

structure SplitPlan where
  total : String
  perPerson : String
  numParticipants : ℤ
deriving Repr, DecidableEq

def calculateSplit : Option ℚ → Option ℤ → Except String SplitPlan
  | none, _ => .error "Invalid split parameters"
  | some _, none => .error "Invalid split parameters"
  | some t, some n =>
    if t = 0 ∨ n = 0 ∨ n ≤ 0 then .error "Invalid split parameters"
    else
      .ok ⟨toFixedStr 2 t, toFixedStr 2 (toFixedVal 7 (t / (n : ℚ))), n⟩

/-- The rational value of the `perPerson` string returned by `calculateSplit`:
the 7-digit-rounded quotient re-rounded to 2 digits. -/
def perPersonVal (t : ℚ) (n : ℤ) : ℚ :=
  toFixedVal 2 (toFixedVal 7 (t / (n : ℚ)))

/-- From the UI module (part_000, split preview handler): after a successful
preview the execute button is bound as
`executeSplitHandler(validation.valid, splitData.perPerson, memo)`, and
`executeSplitHandler` forwards that amount unchanged to `executeSplit`; so the
amount handed to the executor is exactly the plan's `perPerson` field. -/
def executorSubmittedAmount (plan : SplitPlan) : String :=
  plan.perPerson

/-! ## Participant validator (`validateParticipants`, split.js lines 34–66)

Each input address is trimmed and then checked: empty, length 56, prefix
`"G"`, and finally `StellarSdk.StrKey.decodeEd25519PublicKey` inside a
`try/catch`.  The SDK decoder is external to the repository, so it is a
parameter `decodeOk : String → Bool` (`true` = decodes, `false` = throws);
every theorem about the validator holds for an arbitrary decoder. -/

structure AddrError where
  index : ℕ
  address : String
  error : String
deriving Repr, DecidableEq

/-- One loop body of `addresses.forEach((address, index) => ...)`. -/
def validateOne (decodeOk : String → Bool) (index : ℕ) (address : String) :
    Except AddrError String :=
  let trimmed := address.trim
  if trimmed.isEmpty then .error ⟨index, trimmed, "Empty address"⟩
  else if trimmed.length ≠ 56 then .error ⟨index, trimmed, "Must be 56 characters"⟩
  else if ¬ trimmed.startsWith "G" then .error ⟨index, trimmed, "Must start with G"⟩
  else if decodeOk trimmed then .ok trimmed
  else .error ⟨index, trimmed, "Invalid Stellar address"⟩

/-- The `forEach` loop, pushing onto `valid` and `errors` in input order;
`index` is the position of the head of the remaining list. -/
def validateGo (decodeOk : String → Bool) : ℕ → List String → List String × List AddrError
  | _, [] => ([], [])
  | index, address :: rest =>
    let next := validateGo decodeOk (index + 1) rest
    match validateOne decodeOk index address with
    | .ok trimmed => (trimmed :: next.1, next.2)
    | .error e => (next.1, e :: next.2)

def validateParticipants (decodeOk : String → Bool) (addresses : List String) :
    List String × List AddrError :=
  validateGo decodeOk 0 addresses

/-! ## Sequential settlement executor (`executeSplit`, split.js lines 72–161)

The four awaited collaborator calls inside the `try` block —
`server.loadAccount`, `server.fetchBaseFee`, `signTransaction` (Freighter)
and `server.submitTransaction` — are oracles indexed by the 1-based loop
counter `currentIndex`; each either returns a value or throws an error
message.  Transaction building (`TransactionBuilder`, memo, timeout 30) is
pure bookkeeping with no effect on control flow and is not modelled further.
-/

structure Env where
  loadAccount : ℕ → Except String Unit
  fetchBaseFee : ℕ → Except String Unit
  sign : ℕ → Except String String
  submit : ℕ → Except String String

/-- The body of the `try` block for iteration `i`: the first collaborator
that throws aborts the block with its error; otherwise the submission's
transaction hash is returned. -/
def stepResult (env : Env) (i : ℕ) : Except String String :=
  match env.loadAccount i with
  | .error e => .error e
  | .ok _ =>
    match env.fetchBaseFee i with
    | .error e => .error e
    | .ok _ =>
      match env.sign i with
      | .error e => .error e
      | .ok _ => env.submit i

/-- Observable actions of a run: collaborator calls that were actually made,
and `updateSplitProgress(current, total, status)` signals. -/
inductive Event
  | progress (current total : ℕ) (status : String)
  | loadAccount (i : ℕ)
  | fetchBaseFee (i : ℕ)
  | sign (i : ℕ)
  | submit (i : ℕ)
deriving Repr, DecidableEq

/-- The 1-based iteration a trace event belongs to. -/
def Event.iter : Event → ℕ
  | .progress c _ _ => c
  | .loadAccount i => i
  | .fetchBaseFee i => i
  | .sign i => i
  | .submit i => i

/-- The collaborator calls attempted during iteration `i`, in order:
each call is attempted only if all previous ones succeeded. -/
def stepTrace (env : Env) (i : ℕ) : List Event :=
  .loadAccount i ::
    match env.loadAccount i with
    | .error _ => []
    | .ok _ =>
      .fetchBaseFee i ::
        match env.fetchBaseFee i with
        | .error _ => []
        | .ok _ =>
          .sign i ::
            match env.sign i with
            | .error _ => []
            | .ok _ => [.submit i]

/-- A per-participant `results` entry.  A success carries `hash` and
`explorerUrl`; a failure carries `error`. -/
structure Outcome where
  recipient : String
  amount : String
  status : String
  hash : Option String
  explorerUrl : Option String
  error : Option String
deriving Repr, DecidableEq

def successOutcome (recipient amount h : String) : Outcome :=
  ⟨recipient, amount, "success", some h,
    some ("https://stellar.expert/explorer/testnet/tx/" ++ h), none⟩

/-- The `catch` block's error classification (split.js lines 138–144). -/
def classifyError (msg : String) : String :=
  if jsIncludes msg "User declined" then "Declined by user"
  else if jsIncludes msg "Insufficient balance" then "Insufficient balance"
  else "Payment failed"

def failedOutcome (recipient amount msg : String) : Outcome :=
  ⟨recipient, amount, "failed", none, none, some (classifyError msg)⟩

/-- The `for (const recipient of participants)` loop; `idx` is the value of
`currentIndex` before the iteration's `currentIndex++`.  Returns the
`results` list and the trace of observable actions. -/
def executeSplitGo (env : Env) (amount : String) (total : ℕ) :
    ℕ → List String → List Outcome × List Event
  | _, [] => ([], [])
  | idx, recipient :: rest =>
    match stepResult env (idx + 1) with
    | .ok h =>
      (successOutcome recipient amount h :: (executeSplitGo env amount total (idx + 1) rest).1,
        (Event.progress (idx + 1) total "processing" ::
          (stepTrace env (idx + 1) ++ [Event.progress (idx + 1) total "success"])) ++
          (executeSplitGo env amount total (idx + 1) rest).2)
    | .error e =>
      ([failedOutcome recipient amount e],
        Event.progress (idx + 1) total "processing" ::
          (stepTrace env (idx + 1) ++ [Event.progress (idx + 1) total "failed"]))

/-- The function `executeSplit(publicKey, participants, amountPerPerson, memo)`.  The payer
key and memo do not influence the control flow beyond being forwarded to the
collaborators, which the `Env` oracles already absorb. -/
def executeSplit (env : Env) (publicKey : String) (participants : List String)
    (amountPerPerson : String) (memo : String) : List Outcome × List Event :=
  executeSplitGo env amountPerPerson participants.length 0 participants

/-! ## Balance protection module (part_001)

`checkSufficientBalance` loads the account, reads the native-asset balance
(defaulting to `"0"`), and compares it against
`amount + BASE_FEE_XLM * numPayments`; any thrown error is logged and
re-thrown.  `validateBalanceForPayment` / `validateBalanceForSplit` wrap it
and return `true` (proceed) when it throws.  Balance strings from Horizon are
modelled as the rationals they denote (`parseFloat` is the identity here);
the account query's outcome is the `Except` argument. -/

def BASE_FEE_XLM : ℚ := 1 / 100000

structure BalanceEntry where
  asset_type : String
  balance : ℚ
deriving Repr, DecidableEq

structure Account where
  balances : List BalanceEntry
deriving Repr, DecidableEq

structure BalanceCheck where
  sufficient : Bool
  available : String
  required : String
  shortfall : String
deriving Repr, DecidableEq

/-- The function `estimateTotalCost(amount, numPayments)` (part_001 lines 45–50). -/
def estimateTotalCost (amount : ℚ) (numPayments : ℕ) : ℚ :=
  amount + BASE_FEE_XLM * numPayments

/-- The function `checkSufficientBalance(publicKey, amount, numPayments)` (part_001 lines
17–40); `acctResult` is the outcome of `server.loadAccount(publicKey)`. -/
def checkSufficientBalance (acctResult : Except String Account) (amount : ℚ)
    (numPayments : ℕ) : Except String BalanceCheck :=
  match acctResult with
  | .error e => .error e
  | .ok account =>
    let balance := ((account.balances.find? fun b => b.asset_type == "native").map
      fun b => b.balance).getD 0
    let available := balance
    let totalCost := estimateTotalCost amount numPayments
    .ok ⟨decide (available ≥ totalCost), toFixedStr 2 available, toFixedStr 2 totalCost,
      if available < totalCost then toFixedStr 2 (totalCost - available) else "0"⟩

/-- The function `validateBalanceForPayment(publicKey, amount)` (part_001 lines 130–145);
the warning-banner side effects are not modelled. -/
def validateBalanceForPayment (acctResult : Except String Account) (amount : ℚ) : Bool :=
  match checkSufficientBalance acctResult amount 1 with
  | .error _ => true
  | .ok check => check.sufficient

/-- The function `validateBalanceForSplit(publicKey, totalAmount, numParticipants)`
(part_001 lines 151–166). -/
def validateBalanceForSplit (acctResult : Except String Account) (totalAmount : ℚ)
    (numParticipants : ℕ) : Bool :=
  match checkSufficientBalance acctResult totalAmount numParticipants with
  | .error _ => true
  | .ok check => check.sufficient

end StellarWhiteBelt

namespace StellarWhiteBelt

/-! ## Concrete environments and accounts used to exercise the model -/

/-- A funded account: one native-asset entry with balance 10 XLM. -/
def acct10 : Account := ⟨[⟨"native", 10⟩]⟩

/-- Collaborators where payment 1 fully succeeds and the user declines the
signature prompt of payment 2. -/
def envDeclineSecond : Env :=
  ⟨fun _ => .ok (), fun _ => .ok (),
    fun i => if i = 2 then .error "User declined the request" else .ok "signedxdr",
    fun _ => .ok "cafebabe"⟩

/-- Collaborators where every signature request fails with a message matching
no known category. -/
def envSignBoom : Env :=
  ⟨fun _ => .ok (), fun _ => .ok (), fun _ => .error "boom", fun _ => .ok "cafebabe"⟩

end StellarWhiteBelt

namespace StellarWhiteBelt

/-! ## Validator lemmas -/

lemma validateOne_ok {decodeOk : String → Bool} {i : ℕ} {a s : String}
    (h : validateOne decodeOk i a = .ok s) : s = a.trim := by
  rw [validateOne] at h
  split at h
  · exact absurd h (by simp)
  split at h
  · exact absurd h (by simp)
  split at h
  · exact absurd h (by simp)
  split at h
  · exact (Except.ok.injEq _ _).mp h |>.symm
  · exact absurd h (by simp)

lemma validateGo_length (decodeOk : String → Bool) :
    ∀ (i : ℕ) (l : List String),
      (validateGo decodeOk i l).1.length + (validateGo decodeOk i l).2.length = l.length
  | _, [] => rfl
  | i, a :: rest => by
    rw [validateGo]
    cases h : validateOne decodeOk i a with
    | ok s =>
      simp only [List.length_cons]
      have := validateGo_length decodeOk (i + 1) rest
      omega
    | error e =>
      simp only [List.length_cons]
      have := validateGo_length decodeOk (i + 1) rest
      omega

lemma validateGo_sublist (decodeOk : String → Bool) :
    ∀ (i : ℕ) (l : List String),
      (validateGo decodeOk i l).1.Sublist (l.map String.trim)
  | _, [] => List.Sublist.refl _
  | i, a :: rest => by
    rw [validateGo]
    cases h : validateOne decodeOk i a with
    | ok s =>
      simpa [validateOne_ok h] using
        List.Sublist.cons₂ a.trim (validateGo_sublist decodeOk (i + 1) rest)
    | error e =>
      simpa using List.Sublist.cons a.trim (validateGo_sublist decodeOk (i + 1) rest)

end StellarWhiteBelt

namespace StellarWhiteBelt

/-! ## Executor lemmas -/

lemma go_length_le (env : Env) (amount : String) (total : ℕ) :
    ∀ (idx : ℕ) (ps : List String),
      (executeSplitGo env amount total idx ps).1.length ≤ ps.length
  | _, [] => Nat.le_refl 0
  | idx, p :: rest => by
    rw [executeSplitGo]
    cases hstep : stepResult env (idx + 1) with
    | ok hsh =>
      simpa using go_length_le env amount total (idx + 1) rest
    | error e =>
      simp

lemma go_get?_spec (env : Env) (amount : String) (total : ℕ) :
    ∀ (idx : ℕ) (ps : List String) (i : ℕ) (o : Outcome),
      (executeSplitGo env amount total idx ps).1.get? i = some o →
      ps.get? i = some o.recipient ∧
      (i + 1 < (executeSplitGo env amount total idx ps).1.length → o.status = "success") ∧
      (o.status = "failed" → i + 1 = (executeSplitGo env amount total idx ps).1.length)
  | idx, [], i, o => by simp [executeSplitGo]
  | idx, p :: rest, i, o => by
    rw [executeSplitGo]
    cases hstep : stepResult env (idx + 1) with
    | ok hsh =>
      cases i with
      | zero =>
        intro h
        simp only [List.get?] at h
        obtain rfl : successOutcome p amount hsh = o := by
          exact Option.some.injEq _ _ ▸ h |>.symm ▸ rfl
        refine ⟨rfl, fun _ => rfl, fun hf => ?_⟩
        exact absurd hf (by simp [successOutcome])
      | succ i =>
        intro h
        simp only [List.get?] at h
        have ih := go_get?_spec env amount total (idx + 1) rest i o h
        refine ⟨ih.1, fun hlt => ?_, fun hf => ?_⟩
        · exact ih.2.1 (by simpa using Nat.lt_of_succ_lt_succ hlt)
        · have := ih.2.2 hf
          simp only [List.length_cons]
          omega
    | error e =>
      cases i with
      | zero =>
        intro h
        simp only [List.get?] at h
        obtain rfl : failedOutcome p amount e = o := by
          exact Option.some.injEq _ _ ▸ h |>.symm ▸ rfl
        exact ⟨rfl, by simp, fun _ => rfl⟩
      | succ i =>
        intro h
        simp only [List.get?] at h
        exact absurd h (by simp)

end StellarWhiteBelt

namespace StellarWhiteBelt

lemma go_first_fail (env : Env) (amount : String) (total : ℕ) :
    ∀ (idx : ℕ) (ps : List String) (i : ℕ) (hi : i < ps.length) (e : String),
      stepResult env (idx + i + 1) = .error e →
      (∀ j, j < i → ∃ h, stepResult env (idx + j + 1) = .ok h) →
      (executeSplitGo env amount total idx ps).1.length = i + 1 ∧
      (executeSplitGo env amount total idx ps).1.get? i
        = some (failedOutcome (ps.get ⟨i, hi⟩) amount e)
  | idx, [], i, hi, e => by simp at hi
  | idx, p :: rest, i, hi, e => by
    intro hfail hpre
    rw [executeSplitGo]
    cases i with
    | zero =>
      rw [show idx + 0 + 1 = idx + 1 by omega] at hfail
      rw [hfail]
      simp
    | succ i =>
      obtain ⟨h0, hok⟩ := hpre 0 (Nat.succ_pos i)
      rw [show idx + 0 + 1 = idx + 1 by omega] at hok
      rw [hok]
      have ih := go_first_fail env amount total (idx + 1) rest i
        (Nat.lt_of_succ_lt_succ hi) e
        (by rw [show idx + 1 + i + 1 = idx + (i + 1) + 1 by omega]; exact hfail)
        (fun j hj => by
          rw [show idx + 1 + j + 1 = idx + (j + 1) + 1 by omega]
          exact hpre (j + 1) (Nat.succ_lt_succ hj))
      simp only [List.length_cons, List.get?]
      exact ⟨by omega, ih.2⟩

lemma go_failed_mem (env : Env) (amount : String) (total : ℕ) :
    ∀ (idx : ℕ) (ps : List String) (r : Outcome),
      r ∈ (executeSplitGo env amount total idx ps).1 →
      r.status = "failed" →
      ∃ a e, r = failedOutcome a amount e
  | idx, [], r => by simp [executeSplitGo]
  | idx, p :: rest, r => by
    rw [executeSplitGo]
    cases hstep : stepResult env (idx + 1) with
    | ok hsh =>
      intro hmem hf
      rcases List.mem_cons.mp hmem with rfl | hmem
      · exact absurd hf (by simp [successOutcome])
      · exact go_failed_mem env amount total (idx + 1) rest r hmem hf
    | error e =>
      intro hmem _
      rcases List.mem_cons.mp hmem with rfl | hmem
      · exact ⟨p, e, rfl⟩
      · exact absurd hmem (by simp)

end StellarWhiteBelt

namespace StellarWhiteBelt

/-! ## Rounding-error bound and concrete evaluations -/

lemma abs_toFixedVal_sub_le (d : ℕ) (q : ℚ) :
    |toFixedVal d q - q| ≤ 1 / (2 * 10 ^ d) := by
  rw [toFixedVal]
  have h10 : (0:ℚ) < 10 ^ d := by positivity
  have key : (round (q * 10 ^ d) : ℚ) / 10 ^ d - q
      = ((round (q * 10 ^ d) : ℚ) - q * 10 ^ d) / 10 ^ d := by
    field_simp; ring
  rw [key, abs_div, abs_of_pos h10, abs_sub_comm,
    div_le_div_iff₀ h10 (by positivity : (0:ℚ) < 2 * 10 ^ d)]
  have h := mul_le_mul_of_nonneg_right (abs_sub_round (q * 10 ^ d))
    (le_of_lt (by positivity : (0:ℚ) < 2 * 10 ^ d))
  linarith

lemma toFixedVal_seven_ten_thirds :
    toFixedVal 7 (10 / ((3:ℤ) : ℚ)) = 33333333 / 10 ^ 7 := by
  rw [toFixedVal]
  have h7 : round ((10:ℚ) / ((3:ℤ) : ℚ) * 10 ^ 7) = 33333333 := by
    rw [round_eq]; push_cast; norm_num
  rw [h7]; norm_num

lemma calculateSplit_ten_three :
    calculateSplit (some 10) (some 3) = .ok ⟨"10.00", "3.33", 3⟩ := by
  have h1 : round ((10:ℚ) * 10 ^ 2) = 1000 := by rw [round_eq]; norm_num
  have h2 : round ((33333333 / 10 ^ 7 : ℚ) * 10 ^ 2) = 333 := by
    rw [round_eq]; norm_num
  rw [calculateSplit, if_neg (by norm_num), toFixedStr, h1,
    toFixedVal_seven_ten_thirds, toFixedStr, h2]
  simp only [Except.ok.injEq]
  decide

lemma perPersonVal_ten_three : perPersonVal 10 3 = 333 / 100 := by
  rw [perPersonVal, toFixedVal_seven_ten_thirds, toFixedVal]
  have h2 : round ((33333333 / 10 ^ 7 : ℚ) * 10 ^ 2) = 333 := by
    rw [round_eq]; norm_num
  rw [h2]; norm_num

end StellarWhiteBelt

namespace StellarWhiteBelt

/-! ## Claim theorems: calculator and validator -/

/-- C2: for every decoder and list of address strings, `validateParticipants`
returns a complete partition — `valid.length + errors.length` equals the input
length — and `valid` preserves the input's relative order (it is an in-order
sublist of the trimmed inputs, duplicates preserved); the function is total,
so it never throws. -/
theorem validateParticipants_complete_partition
    (decodeOk : String → Bool) (addresses : List String) :
    (validateParticipants decodeOk addresses).1.length
        + (validateParticipants decodeOk addresses).2.length = addresses.length ∧
    (validateParticipants decodeOk addresses).1.Sublist (addresses.map String.trim) :=
  ⟨validateGo_length decodeOk 0 addresses, validateGo_sublist decodeOk 0 addresses⟩

/-- C3 (counterexample): the claim "`perPerson * C` differs from `T` by at most
`10 ^ (-7)`" fails at `T = 10`, `C = 3`: the returned `perPerson` is the
2-digit display value `"3.33"` (rational value `333/100`), and
`|3.33 * 3 - 10| = 0.01 > 10 ^ (-7)`. -/
theorem calculateSplit_residue_counterexample :
    calculateSplit (some 10) (some 3) = .ok ⟨"10.00", "3.33", 3⟩ ∧
    perPersonVal 10 3 = 333 / 100 ∧
    ¬ |perPersonVal 10 3 * 3 - 10| ≤ 1 / 10 ^ 7 := by
  refine ⟨calculateSplit_ten_three, perPersonVal_ten_three, ?_⟩
  rw [perPersonVal_ten_three]
  norm_num [abs_le]

/-- C3 (amended): the `perPerson` value returned by `calculateSplit` is the
7-digit quotient re-rounded to 2 display digits, so `perPerson * C` differs
from `T` by at most `C` times half a display unit plus half a minimum unit,
`C * (1/200 + 1/(2 * 10^7)) = C * 100001/20000000` — not by one minimum
fractional unit `10 ^ (-7)`. -/
theorem calculateSplit_residue_bound (t : ℚ) (n : ℤ) (ht : 0 < t) (hn : 0 < n) :
    calculateSplit (some t) (some n)
        = .ok ⟨toFixedStr 2 t, toFixedStr 2 (toFixedVal 7 (t / (n : ℚ))), n⟩ ∧
    |perPersonVal t n * (n : ℚ) - t| ≤ (n : ℚ) * (100001 / 20000000) := by
  have hn0 : ((n : ℚ)) ≠ 0 := Int.cast_ne_zero.mpr (by omega)
  constructor
  · rw [calculateSplit, if_neg ?_]
    push_neg
    exact ⟨ne_of_gt ht, by omega, by omega⟩
  · have h7 := abs_toFixedVal_sub_le 7 (t / (n : ℚ))
    have h2 := abs_toFixedVal_sub_le 2 (toFixedVal 7 (t / (n : ℚ)))
    have tri : |perPersonVal t n - t / (n : ℚ)| ≤ 100001 / 20000000 := by
      have htri := abs_sub_le (perPersonVal t n) (toFixedVal 7 (t / (n : ℚ))) (t / (n : ℚ))
      rw [perPersonVal] at htri ⊢
      norm_num at h2 h7 htri ⊢
      linarith
    have hcast : (0:ℚ) < (n : ℚ) := by exact_mod_cast hn
    have hxn : t / (n : ℚ) * (n : ℚ) = t := div_mul_cancel₀ t hn0
    calc |perPersonVal t n * (n : ℚ) - t|
        = |(perPersonVal t n - t / (n : ℚ)) * (n : ℚ)| := by rw [sub_mul, hxn]
      _ = |perPersonVal t n - t / (n : ℚ)| * |(n : ℚ)| := abs_mul _ _
      _ = |perPersonVal t n - t / (n : ℚ)| * (n : ℚ) := by rw [abs_of_pos hcast]
      _ ≤ (100001 / 20000000) * (n : ℚ) :=
          mul_le_mul_of_nonneg_right tri (le_of_lt hcast)
      _ = (n : ℚ) * (100001 / 20000000) := mul_comm _ _

/-- Witness for `calculateSplit_residue_bound` at `T = 10`, `C = 3`. -/
theorem calculateSplit_residue_bound_witness :
    calculateSplit (some 10) (some 3)
        = .ok ⟨toFixedStr 2 10, toFixedStr 2 (toFixedVal 7 (10 / ((3:ℤ) : ℚ))), 3⟩ ∧
    |perPersonVal 10 3 * ((3:ℤ) : ℚ) - 10| ≤ ((3:ℤ) : ℚ) * (100001 / 20000000) :=
  calculateSplit_residue_bound 10 3 (by norm_num) (by norm_num)

end StellarWhiteBelt

namespace StellarWhiteBelt

/-- C4 (counterexample): a negative total is NOT rejected — the JS guard
`!totalAmount` only catches a zero/missing total, so
`calculateSplit(-10, 2)` returns a plan instead of throwing. -/
theorem calculateSplit_negative_total_accepted :
    calculateSplit (some (-10)) (some 2) = .ok ⟨"-10.00", "-5.00", 2⟩ := by
  have h1 : round ((-10:ℚ) * 10 ^ 2) = -1000 := by rw [round_eq]; norm_num
  have hv : toFixedVal 7 ((-10:ℚ) / ((2:ℤ) : ℚ)) = -50000000 / 10 ^ 7 := by
    rw [toFixedVal]
    have h7 : round ((-10:ℚ) / ((2:ℤ) : ℚ) * 10 ^ 7) = -50000000 := by
      rw [round_eq]; push_cast; norm_num
    rw [h7]; norm_num
  have h2 : round ((-50000000 / 10 ^ 7 : ℚ) * 10 ^ 2) = -500 := by
    rw [round_eq]; norm_num
  rw [calculateSplit, if_neg (by norm_num), toFixedStr, h1, hv, toFixedStr, h2]
  simp only [Except.ok.injEq]
  decide

/-- C4 (amended): `calculateSplit` throws `"Invalid split parameters"`
exactly when the total is missing or zero, or the count is missing, zero, or
negative; a negative total is accepted. -/
theorem calculateSplit_invalid_iff (t : Option ℚ) (n : Option ℤ) :
    calculateSplit t n = .error "Invalid split parameters" ↔
      t = none ∨ t = some 0 ∨ n = none ∨ ∃ m, n = some m ∧ m ≤ 0 := by
  cases t with
  | none => simp [calculateSplit]
  | some t =>
    cases n with
    | none => simp [calculateSplit]
    | some n =>
      rw [calculateSplit]
      by_cases h : t = 0 ∨ n = 0 ∨ n ≤ 0
      · rw [if_pos h]
        simp only [true_iff]
        rcases h with h | h | h
        · exact Or.inr (Or.inl (by rw [h]))
        · exact Or.inr (Or.inr (Or.inr ⟨n, rfl, le_of_eq h⟩))
        · exact Or.inr (Or.inr (Or.inr ⟨n, rfl, h⟩))
      · rw [if_neg h]
        push_neg at h
        simp only [reduceCtorEq, Option.some.injEq, false_iff, not_or]
        refine ⟨by simp, by simpa using h.1, by simp, ?_⟩
        rintro ⟨m, rfl, hle⟩
        exact absurd hle (not_le.mpr h.2.2)

end StellarWhiteBelt

namespace StellarWhiteBelt

/-- C5 (counterexample): at `T = 10`, `C = 3` the result record holds only the
2-digit display strings (`"10.00"`, `"3.33"`), and the amount the executor
submits is the 2-digit `"3.33"`, not the full-precision 7-digit `"3.3333333"`
— the 7-digit value is computed only as a discarded intermediate. -/
theorem calculateSplit_precision_counterexample :
    calculateSplit (some 10) (some 3) = .ok ⟨"10.00", "3.33", 3⟩ ∧
    executorSubmittedAmount ⟨"10.00", "3.33", 3⟩ = "3.33" ∧
    toFixedStr 7 (10 / ((3:ℤ) : ℚ)) = "3.3333333" ∧
    ("3.33" : String) ≠ "3.3333333" := by
  refine ⟨calculateSplit_ten_three, rfl, ?_, by decide⟩
  rw [toFixedStr]
  have h7 : round ((10:ℚ) / ((3:ℤ) : ℚ) * 10 ^ 7) = 33333333 := by
    rw [round_eq]; push_cast; norm_num
  rw [h7]
  decide

/-- C5 (amended): from the result of `calculateSplit` only the 2-digit display
amounts are retrievable — `total` and `perPerson` are both `toFixed(2)`
strings, with the 7-digit value only an internal intermediate — and the
executor submits that same 2-digit display amount the UI shows. -/
theorem calculateSplit_display_precision_only (t : ℚ) (n : ℤ) (plan : SplitPlan)
    (h : calculateSplit (some t) (some n) = .ok plan) :
    plan.total = toFixedStr 2 t ∧
    plan.perPerson = toFixedStr 2 (toFixedVal 7 (t / (n : ℚ))) ∧
    executorSubmittedAmount plan = toFixedStr 2 (toFixedVal 7 (t / (n : ℚ))) := by
  rw [calculateSplit] at h
  split at h
  · exact absurd h (by simp)
  · obtain rfl := (Except.ok.inj h).symm
    exact ⟨rfl, rfl, rfl⟩

/-- Witness for `calculateSplit_display_precision_only` at `T = 10`, `C = 3`. -/
theorem calculateSplit_display_precision_only_witness :
    ("10.00" : String) = toFixedStr 2 10 ∧
    ("3.33" : String) = toFixedStr 2 (toFixedVal 7 (10 / ((3:ℤ) : ℚ))) ∧
    executorSubmittedAmount ⟨"10.00", "3.33", 3⟩
        = toFixedStr 2 (toFixedVal 7 (10 / ((3:ℤ) : ℚ))) :=
  calculateSplit_display_precision_only 10 3 ⟨"10.00", "3.33", 3⟩ calculateSplit_ten_three

end StellarWhiteBelt

namespace StellarWhiteBelt

/-! ## Claim theorems: balance protection -/

/-- C6: the balance pre-check fails open — for every error thrown by the
underlying account query and for all amounts/counts, the payment and split
balance validators report "proceed" (`true`) instead of propagating the
error or blocking. -/
theorem balance_check_fails_open (err : String) (amount totalAmount : ℚ)
    (numParticipants : ℕ) :
    validateBalanceForPayment (.error err) amount = true ∧
    validateBalanceForSplit (.error err) totalAmount numParticipants = true :=
  ⟨rfl, rfl⟩

/-- C7: for an account with spendable balance 10, amount 4 and count 3, the
pre-check compares against the full-precision cost `4.00003`
(`4 + 3 × 0.00001`, so not merely `4`) and reports `sufficient = true` with
the 2-decimal display string `required = "4.00"`. -/
theorem balance_check_ten_four_three :
    checkSufficientBalance (.ok acct10) 4 3 = .ok ⟨true, "10.00", "4.00", "0"⟩ ∧
    estimateTotalCost 4 3 = 400003 / 100000 ∧
    estimateTotalCost 4 3 ≠ 4 := by
  have hcost : estimateTotalCost 4 3 = 400003 / 100000 := by
    rw [estimateTotalCost, BASE_FEE_XLM]; norm_num
  have hav : toFixedStr 2 (10 : ℚ) = "10.00" := by
    have h1 : round ((10:ℚ) * 10 ^ 2) = 1000 := by rw [round_eq]; norm_num
    rw [toFixedStr, h1]; decide
  have hreq : toFixedStr 2 ((400003 : ℚ) / 100000) = "4.00" := by
    have h2 : round ((400003 : ℚ) / 100000 * 10 ^ 2) = 400 := by
      rw [round_eq]; norm_num
    rw [toFixedStr, h2]; decide
  refine ⟨?_, hcost, by rw [hcost]; norm_num⟩
  rw [checkSufficientBalance]
  simp only [acct10, List.find?, beq_self_eq_true, Option.map_some',
    Option.getD_some, hcost]
  rw [if_neg (by norm_num), hav, hreq]
  simp only [Except.ok.injEq, BalanceCheck.mk.injEq, decide_eq_true_eq]
  norm_num

end StellarWhiteBelt

namespace StellarWhiteBelt

/-! ## Claim theorems: sequential settlement executor -/

/-- C1: for every payer, participants `[A, B, C]` and per-person amount, if
payment 1 fully succeeds and the signing step of payment 2 is declined (its
error message contains `"User declined"`), then `executeSplit` returns
exactly `[success(A), failed(B, "Declined by user")]` and the trace contains
no step — account load, fee fetch, sign, or submit — for participant `C` or
any later iteration. -/
theorem executeSplit_declined_second_halts
    (env : Env) (publicKey A B C amt memo : String) (sig1 hash1 e : String)
    (h1l : env.loadAccount 1 = .ok ()) (h1f : env.fetchBaseFee 1 = .ok ())
    (h1s : env.sign 1 = .ok sig1) (h1sub : env.submit 1 = .ok hash1)
    (h2l : env.loadAccount 2 = .ok ()) (h2f : env.fetchBaseFee 2 = .ok ())
    (h2s : env.sign 2 = .error e)
    (he : jsIncludes e "User declined" = true) :
    (executeSplit env publicKey [A, B, C] amt memo).1
        = [successOutcome A amt hash1,
            ⟨B, amt, "failed", none, none, some "Declined by user"⟩] ∧
    ∀ ev ∈ (executeSplit env publicKey [A, B, C] amt memo).2, ev.iter ≤ 2 := by
  have s1 : stepResult env 1 = .ok hash1 := by
    simp [stepResult, h1l, h1f, h1s, h1sub]
  have s2 : stepResult env 2 = .error e := by
    simp [stepResult, h2l, h2f, h2s]
  have tr1 : stepTrace env 1 = [.loadAccount 1, .fetchBaseFee 1, .sign 1, .submit 1] := by
    simp [stepTrace, h1l, h1f, h1s]
  have tr2 : stepTrace env 2 = [.loadAccount 2, .fetchBaseFee 2, .sign 2] := by
    simp [stepTrace, h2l, h2f, h2s]
  constructor
  · simp [executeSplit, executeSplitGo, s1, s2, failedOutcome, classifyError, he]
  · intro ev hev
    simp [executeSplit, executeSplitGo, s1, s2, tr1, tr2] at hev
    rcases hev with rfl | rfl | rfl | rfl | rfl | rfl | rfl | rfl | rfl | rfl | rfl <;>
      simp [Event.iter]

/-- Witness for `executeSplit_declined_second_halts`: the concrete
environment `envDeclineSecond`. -/
theorem executeSplit_declined_second_halts_witness :
    (executeSplit envDeclineSecond "GPAYER" ["GA", "GB", "GC"] "3.33" "lunch").1
        = [successOutcome "GA" "3.33" "cafebabe",
            ⟨"GB", "3.33", "failed", none, none, some "Declined by user"⟩] ∧
    ∀ ev ∈ (executeSplit envDeclineSecond "GPAYER" ["GA", "GB", "GC"] "3.33" "lunch").2,
      ev.iter ≤ 2 :=
  executeSplit_declined_second_halts envDeclineSecond "GPAYER" "GA" "GB" "GC" "3.33"
    "lunch" "signedxdr" "cafebabe" "User declined the request"
    rfl rfl rfl rfl rfl rfl rfl (by decide)

/-- C8: `executeSplit` never throws — whenever the first collaborator failure
of a run happens at step `i + 1` (all earlier steps succeeded), the function
still returns a results list, of length `i + 1`, whose final entry is the
`failed` outcome for participant `i` carrying the categorized error; the
caller reads success or failure off that list. -/
theorem executeSplit_never_throws_failure_surfaced
    (env : Env) (publicKey amt memo : String) (ps : List String)
    (i : ℕ) (hi : i < ps.length) (e : String)
    (hfail : stepResult env (i + 1) = .error e)
    (hpre : ∀ j, j < i → ∃ h, stepResult env (j + 1) = .ok h) :
    (executeSplit env publicKey ps amt memo).1.length = i + 1 ∧
    (executeSplit env publicKey ps amt memo).1.get? i
        = some (failedOutcome (ps.get ⟨i, hi⟩) amt e) := by
  have key := go_first_fail env amt ps.length 0 ps i hi e
    (by rw [show 0 + i + 1 = i + 1 by omega]; exact hfail)
    (fun j hj => by rw [show 0 + j + 1 = j + 1 by omega]; exact hpre j hj)
  exact key

/-- Witness for `executeSplit_never_throws_failure_surfaced`: a signing
failure at the very first step. -/
theorem executeSplit_never_throws_failure_surfaced_witness :
    (executeSplit envSignBoom "GPAYER" ["GA"] "1.00" "").1.length = 0 + 1 ∧
    (executeSplit envSignBoom "GPAYER" ["GA"] "1.00" "").1.get? 0
        = some (failedOutcome ((["GA"] : List String).get ⟨0, by decide⟩) "1.00" "boom") :=
  executeSplit_never_throws_failure_surfaced envSignBoom "GPAYER" "1.00" "" ["GA"]
    0 (by decide) "boom" rfl (fun j hj => absurd hj (Nat.not_lt_zero j))

/-- C9: the results list is a prefix-aligned record — its length never
exceeds the participant count, the `i`-th outcome's recipient is the `i`-th
participant, every outcome before the last has status `"success"`, and a
`"failed"` outcome can only be the last element. -/
theorem executeSplit_prefix_aligned (env : Env) (publicKey amt memo : String)
    (ps : List String) :
    (executeSplit env publicKey ps amt memo).1.length ≤ ps.length ∧
    ∀ (i : ℕ) (o : Outcome),
      (executeSplit env publicKey ps amt memo).1.get? i = some o →
      ps.get? i = some o.recipient ∧
      (i + 1 < (executeSplit env publicKey ps amt memo).1.length →
        o.status = "success") ∧
      (o.status = "failed" →
        i + 1 = (executeSplit env publicKey ps amt memo).1.length) :=
  ⟨go_length_le env amt ps.length 0 ps,
    fun i o h => go_get?_spec env amt ps.length 0 ps i o h⟩

/-- Witness for `executeSplit_prefix_aligned`: a run over two participants
that fails at step 1. -/
theorem executeSplit_prefix_aligned_witness :
    (executeSplit envSignBoom "GPAYER" ["GA", "GB"] "1.00" "").1.length ≤ 2 ∧
    (["GA", "GB"] : List String).get? 0
        = some (failedOutcome "GA" "1.00" "boom").recipient ∧
    0 + 1 = (executeSplit envSignBoom "GPAYER" ["GA", "GB"] "1.00" "").1.length :=
  have h := executeSplit_prefix_aligned envSignBoom "GPAYER" "1.00" "" ["GA", "GB"]
  have h0 := h.2 0 (failedOutcome "GA" "1.00" "boom") rfl
  ⟨h.1, h0.1, h0.2.2 rfl⟩

/-- C10: every `failed` outcome's `error` field is `classifyError` of the
collaborator's message: `"Declined by user"` when the message contains
`"User declined"`, else `"Insufficient balance"` when it contains
`"Insufficient balance"`, and the generic `"Payment failed"` for every other
message (network rejections, bad sequence numbers, validity-window timeouts
included) — always one of those three strings. -/
theorem executeSplit_error_taxonomy (env : Env) (publicKey amt memo : String)
    (ps : List String) (r : Outcome)
    (hr : r ∈ (executeSplit env publicKey ps amt memo).1)
    (hf : r.status = "failed") :
    ∃ msg,
      r.error = some (classifyError msg) ∧
      classifyError msg
        ∈ (["Declined by user", "Insufficient balance", "Payment failed"] : List String) ∧
      (jsIncludes msg "User declined" = true →
        classifyError msg = "Declined by user") ∧
      (jsIncludes msg "User declined" = false →
        jsIncludes msg "Insufficient balance" = true →
        classifyError msg = "Insufficient balance") ∧
      (jsIncludes msg "User declined" = false →
        jsIncludes msg "Insufficient balance" = false →
        classifyError msg = "Payment failed") := by
  obtain ⟨a, e, rfl⟩ := go_failed_mem env amt ps.length 0 ps r hr hf
  refine ⟨e, rfl, ?_, ?_, ?_, ?_⟩
  · rw [classifyError]; split_ifs <;> simp
  · intro h1; simp [classifyError, h1]
  · intro h1 h2; simp [classifyError, h1, h2]
  · intro h1 h2; simp [classifyError, h1, h2]

/-- Witness for `executeSplit_error_taxonomy`: the uncategorized message
`"boom"` lands in the generic `"Payment failed"` bucket. -/
theorem executeSplit_error_taxonomy_witness :
    ∃ msg,
      (failedOutcome "GA" "1.00" "boom").error = some (classifyError msg) ∧
      classifyError msg
        ∈ (["Declined by user", "Insufficient balance", "Payment failed"] : List String) ∧
      (jsIncludes msg "User declined" = true →
        classifyError msg = "Declined by user") ∧
      (jsIncludes msg "User declined" = false →
        jsIncludes msg "Insufficient balance" = true →
        classifyError msg = "Insufficient balance") ∧
      (jsIncludes msg "User declined" = false →
        jsIncludes msg "Insufficient balance" = false →
        classifyError msg = "Payment failed") :=
  executeSplit_error_taxonomy envSignBoom "GPAYER" "1.00" "" ["GA"]
    (failedOutcome "GA" "1.00" "boom") (by decide) rfl

end StellarWhiteBelt

namespace StellarWhiteBelt

/-- Witness for `calculateSplit_invalid_iff`: a zero count is rejected. -/
theorem calculateSplit_invalid_iff_witness :
    calculateSplit (some (-10)) (some 0) = .error "Invalid split parameters" :=
  (calculateSplit_invalid_iff (some (-10)) (some 0)).mpr
    (Or.inr (Or.inr (Or.inr ⟨0, rfl, le_refl 0⟩)))

end StellarWhiteBelt
